import Mathlib

/-!
Verification of `fsdn2plot.py`, a single-file script that loads a station
list, fetches recent seismic waveforms per station, processes them, and
renders a multi-panel plot.

Strings from the script are modelled as `List Char`; Python floats are
modelled as an explicit value type with finite rationals, NaN and the two
infinities; the external FDSN client and the obspy filtering routines are
modelled as opaque per-station inputs (the script only sequences calls to
them), while every computation performed by the script itself (file
parsing, label construction, latency arithmetic, figure geometry, the
per-station fallback on exception) is translated directly from the source.
-/

unseal Rat.mul Rat.add Rat.sub Rat.inv

namespace Fsdn2plot

/-- Characters of a Python string. -/
abbrev LC := List Char

/-- Coerce a Lean string literal to the `List Char` model. -/
def cstr (s : String) : LC := s.toList

/-- Python whitespace characters recognised by `str.split` / `str.strip`
(space, tab, newline, vertical tab, form feed, carriage return). -/
def isPySpace (c : Char) : Bool :=
  c == ' ' || c == '\t' || c == '\n' || c == '\x0b' || c == '\x0c' || c == '\r'

/-- Model of Python `line.strip()`: drop leading and trailing whitespace. -/
def pyStrip (l : LC) : LC :=
  ((l.dropWhile isPySpace).reverse.dropWhile isPySpace).reverse

/-- Helper for `pyWords`: accumulates the current word (reversed). -/
def pyWordsAux : LC → LC → List LC
  | [], acc => if acc.isEmpty then [] else [acc.reverse]
  | c :: cs, acc =>
    if isPySpace c then
      if acc.isEmpty then pyWordsAux cs [] else acc.reverse :: pyWordsAux cs []
    else
      pyWordsAux cs (c :: acc)

/-- Model of Python `s.split()` with no arguments: split on runs of
whitespace, never producing empty tokens. -/
def pyWords (l : LC) : List LC := pyWordsAux l []

/-- Model of Python `s.split(None, 1)`: at most one split, yielding the
first whitespace-delimited token and the remainder of the string after the
following whitespace run (`[]` on an all-whitespace input, a one-element
list when there is no remainder). -/
def pySplit1 (l : LC) : List LC :=
  let l1 := l.dropWhile isPySpace
  match l1 with
  | [] => []
  | _ :: _ =>
    let w := l1.takeWhile (fun c => !(isPySpace c))
    let rest := (l1.dropWhile (fun c => !(isPySpace c))).dropWhile isPySpace
    if rest.isEmpty then [w] else [w, rest]

/-- Model of Python `s.split('.')` (source line 123 `full_sta.split('.')`).
Matches Python semantics: `splitOnDot [] = [[]]`, separators produce empty
chunks. -/
def splitOnDot : LC → List LC
  | [] => [[]]
  | c :: cs =>
    if c = '.' then [] :: splitOnDot cs
    else
      match splitOnDot cs with
      | [] => [[c]]
      | w :: ws => (c :: w) :: ws

/-- Source line 124: `sta = splitted[1] if len(splitted) == 2 else full_sta`. -/
def staCode (full_sta : LC) : LC :=
  let splitted := splitOnDot full_sta
  if h : splitted.length = 2 then splitted.get ⟨1, by omega⟩ else full_sta

/-- One entry of the `estaciones` list (source line 92):
`(net, full_sta, loc, cha)` with `loc = "*"` and `cha = "H*"`. -/
structure Entry where
  net : LC
  full_sta : LC
  loc : LC
  cha : LC
  deriving DecidableEq

/-- Parsing of one line of the station-code file (source lines 86-92):
`partes = line.strip().split()`; the line contributes an entry exactly when
it has at least two tokens, taking the first two as network and station
identifier. -/
def parseCodeLine (line : LC) : Option Entry :=
  match pyWords (pyStrip line) with
  | net :: full_sta :: _ => some ⟨net, full_sta, cstr "*", cstr "H*"⟩
  | _ => none

/-- The `estaciones` list built by the loop at source lines 84-92
(append per qualifying line, in file order). -/
def loadEstaciones (lines : List LC) : List Entry :=
  lines.foldl
    (fun acc line =>
      match parseCodeLine line with
      | some e => acc ++ [e]
      | none => acc)
    []

/-- The `estacion_nombres` dict modelled as an association list with
unique keys: assignment replaces the existing binding or appends. -/
abbrev Dict := List (LC × LC)

/-- Python dict assignment `d[k] = v`. -/
def dictInsert : Dict → LC → LC → Dict
  | [], k, v => [(k, v)]
  | (k', v') :: d, k, v =>
    if k' = k then (k, v) :: d else (k', v') :: dictInsert d k v

/-- Python `d.get(k, dflt)`. -/
def dictGetD : Dict → LC → LC → LC
  | [], _, dflt => dflt
  | (k', v') :: d, k, dflt => if k' = k then v' else dictGetD d k dflt

/-- Parsing of one line of the station-name file (source lines 76-81):
strip, skip empty lines, `parts = line.split(None, 1)`, keep the line
exactly when it has a first token and a non-empty remainder. -/
def parseNameLine (line : LC) : Option (LC × LC) :=
  let l := pyStrip line
  if l.isEmpty then none
  else
    match pySplit1 l with
    | [k, v] => some (k, v)
    | _ => none

/-- One iteration of the name-file loop (source lines 76-81):
`estacion_nombres[parts[0]] = parts[1]` for a qualifying line. -/
def nombresStep (d : Dict) (line : LC) : Dict :=
  match parseNameLine line with
  | some (k, v) => dictInsert d k v
  | none => d

/-- The `estacion_nombres` dict built by the loop at source lines 74-81. -/
def estacionNombres (lines : List LC) : Dict :=
  lines.foldl nombresStep []

/-- Source line 125: `nombre_estacion = estacion_nombres.get(sta, sta)`. -/
def nombreEstacion (lines : List LC) (sta : LC) : LC :=
  dictGetD (estacionNombres lines) sta sta

/-- Python `max(a, b)` on numbers (the larger argument, the first on
ties), written so that the kernel can evaluate it on rational literals. -/
def pymax (a b : ℚ) : ℚ := if a < b then b else a

/-- Kernel-evaluable absolute value on `ℚ`. -/
def qabs (q : ℚ) : ℚ := if q < 0 then -q else q

theorem pymax_eq_max (a b : ℚ) : pymax a b = max a b := by
  unfold pymax
  split
  · exact (max_eq_right (le_of_lt (by assumption))).symm
  · exact (max_eq_left (not_lt.mp (by assumption))).symm

theorem qabs_eq_abs (q : ℚ) : qabs q = |q| := by
  unfold qabs
  split
  · exact (abs_of_neg (by assumption)).symm
  · exact (abs_of_nonneg (not_lt.mp (by assumption))).symm

/-- A numpy float64 sample value: a finite rational, NaN, `+inf` or `-inf`. -/
inductive FVal where
  | fin (q : ℚ)
  | nan
  | pinf
  | ninf
  deriving DecidableEq

/-- Model of `np.isfinite` on one sample. -/
def FVal.isFinite : FVal → Bool
  | .fin _ => true
  | _ => false

/-- Source line 139: `data_cm_s2 = tr.data * 100.0`, elementwise.
Multiplication by the positive constant fixes the non-finite cases. -/
def FVal.scale100 : FVal → FVal
  | .fin q => .fin (q * 100)
  | .nan => .nan
  | .pinf => .pinf
  | .ninf => .ninf

/-- Elementwise `abs` of numpy (source line 146 `abs(data_cm_s2)`). -/
def FVal.fabs : FVal → FVal
  | .fin q => .fin (qabs q)
  | .nan => .nan
  | .pinf => .pinf
  | .ninf => .pinf

/-- numpy pairwise maximum: NaN-propagating, with the usual IEEE ordering
on the rest. -/
def fmax : FVal → FVal → FVal
  | .nan, _ => .nan
  | _, .nan => .nan
  | .pinf, _ => .pinf
  | _, .pinf => .pinf
  | .ninf, y => y
  | x, .ninf => x
  | .fin a, .fin b => .fin (pymax a b)

/-- numpy `arr.max()`: raises `ValueError` on an empty array (modelled as
`none`), otherwise the NaN-propagating fold of pairwise maxima. -/
def npMax : List FVal → Option FVal
  | [] => none
  | x :: xs => some (xs.foldl fmax x)

/-- Decimal digit character. -/
def digitChar (d : ℕ) : Char := Char.ofNat (48 + d)

/-- Decimal digits of a natural number, via explicit fuel. -/
def natToCharsAux : ℕ → ℕ → LC → LC
  | 0, _, acc => acc
  | fuel + 1, n, acc =>
    if n < 10 then digitChar n :: acc
    else natToCharsAux fuel (n / 10) (digitChar (n % 10) :: acc)

/-- Decimal representation of a natural number. -/
def natToChars (n : ℕ) : LC := natToCharsAux (n + 1) n []

/-- Left-pad with zeros to the given width. -/
def padLeftZeros (width : ℕ) (l : LC) : LC :=
  List.replicate (width - l.length) '0' ++ l

/-- Floor of a rational as an integer. -/
def ratFloor (q : ℚ) : ℤ := Int.fdiv q.num q.den

/-- Round a rational to the nearest integer, ties to even (the rounding
used by Python float formatting). -/
def rndHalfEven (q : ℚ) : ℤ :=
  let f := ratFloor q
  let r := q - (f : ℚ)
  if r < 1 / 2 then f
  else if 1 / 2 < r then f + 1
  else if f % 2 = 0 then f else f + 1

/-- Model of Python fixed-point float formatting `f"{q:.prec f}"` on a
(model-finite) value. -/
def fmtFixed (prec : ℕ) (q : ℚ) : LC :=
  let m : ℕ := (rndHalfEven (qabs q * ((10 : ℚ) ^ prec))).toNat
  let ip := m / 10 ^ prec
  let fp := m % 10 ^ prec
  (if q < 0 then ['-'] else []) ++ natToChars ip ++
    (if prec = 0 then [] else '.' :: padLeftZeros prec (natToChars fp))

/-- Python fixed-point formatting of a possibly non-finite float:
`f"{x:.2f}"` prints `nan`, `inf`, `-inf` on the special values. -/
def fmtFVal (prec : ℕ) : FVal → LC
  | .fin q => fmtFixed prec q
  | .nan => cstr "nan"
  | .pinf => cstr "inf"
  | .ninf => cstr "-inf"

/-- Source line 143: `lat_sec = max(0, ahora - tr.stats.endtime)`. -/
def latSec (ahora endtime : ℚ) : ℚ := pymax 0 (ahora - endtime)

/-- Source line 144: seconds format below 60 s, minutes format otherwise. -/
def latStr (lat_sec : ℚ) : LC :=
  if lat_sec < 60 then
    cstr "(latencia " ++ fmtFixed 1 lat_sec ++ cstr "s)"
  else
    cstr "(latencia " ++ fmtFixed 1 (lat_sec / 60) ++ cstr "m)"

/-- The first trace of the fetched-and-filtered stream as the script sees
it at source line 138: sample values, matplotlib sample times, and the
end time of the trace. The fetching and the obspy filters that produce it
are external calls. -/
structure Trace where
  times : List ℚ
  data : List FVal
  endtime : ℚ
  deriving DecidableEq

/-- What one panel draws: the masked blue data line on success, or the
red flat zero line over `[t_inicio, t_fin]` on failure (source lines 148
and 154). -/
inductive PlotCmd where
  | lineBlue (points : List (ℚ × FVal))
  | lineRedFlat (t0 t1 : ℚ)
  deriving DecidableEq

/-- Results of the body of the `try` block that depend on the fetched
stream (source lines 138-148). -/
structure TryOut where
  left_label : LC
  lat_str : LC
  plot : PlotCmd
  deriving DecidableEq

/-- Source lines 138-148, the part of the `try` block after the external
calls have produced a stream: `tr = st[0]` (IndexError on an empty stream
modelled as `none`), scaling by 100, the finiteness mask, latency, the
peak-amplitude label (`abs(data_cm_s2).max()` raises on an empty trace,
modelled as `none`), and the masked plot. A `none` outcome is caught by
the `except` clause. -/
def tryBranch (ahora : ℚ) (sta : LC) (st : List Trace) : Option TryOut := do
  let tr ← st.head?
  let data_cm_s2 := tr.data.map FVal.scale100
  let tiempos := tr.times
  let lat_sec := latSec ahora tr.endtime
  let lat_str := latStr lat_sec
  let peak ← npMax (data_cm_s2.map FVal.fabs)
  let left_label := cstr "[" ++ fmtFVal 2 peak ++ cstr " cm/s²] " ++ sta
  some ⟨left_label,
        lat_str,
        .lineBlue ((tiempos.zip data_cm_s2).filter (fun p => p.2.isFinite))⟩

/-- The whole `try` block for one station: the external fetch and filter
calls either raise (`Except.error`, caught) or produce a stream handed to
`tryBranch`. -/
def attempt (ahora : ℚ) (sta : LC) (fetched : Except Unit (List Trace)) :
    Option TryOut :=
  match fetched with
  | .error _ => none
  | .ok st => tryBranch ahora sta st

/-- Everything one panel of the figure shows. -/
structure Panel where
  left_label : LC
  nombre : LC
  lat_str : LC
  plot : PlotCmd
  deriving DecidableEq

/-- One iteration of the plotting loop (source lines 122-159): station
code extraction, display-name lookup, the `try` block, and the `except`
fallback (`[Sin datos]` label, name suffixed with ` (sin datos)`, empty
latency, red flat line). -/
def loopBody (ahora t_inicio t_fin : ℚ) (nombres : Dict) (e : Entry)
    (fetched : Except Unit (List Trace)) : Panel :=
  let sta := staCode e.full_sta
  let nombre := dictGetD nombres sta sta
  match attempt ahora sta fetched with
  | some out => ⟨out.left_label, nombre, out.lat_str, out.plot⟩
  | none =>
    ⟨cstr "[Sin datos] " ++ sta,
     nombre ++ cstr " (sin datos)",
     [],
     .lineRedFlat t_inicio t_fin⟩

/-- The plotting loop from index `i` on (`for i, ... in enumerate(...)`),
one panel per remaining station. -/
def runPanelsAux (ahora t_inicio t_fin : ℚ) (nombres : Dict)
    (fetch : ℕ → Except Unit (List Trace)) : ℕ → List Entry → List Panel
  | _, [] => []
  | i, e :: rest =>
    loopBody ahora t_inicio t_fin nombres e (fetch i) ::
      runPanelsAux ahora t_inicio t_fin nombres fetch (i + 1) rest

/-- The full plotting loop (source lines 122-166): one panel per entry of
`estaciones`, in order, station `i` fetched with `fetch i`. -/
def runPanels (ahora t_inicio t_fin : ℚ) (nombres : Dict)
    (fetch : ℕ → Except Unit (List Trace)) (ests : List Entry) : List Panel :=
  runPanelsAux ahora t_inicio t_fin nombres fetch 0 ests

/-- Source line 55. -/
def IMG_WIDTH_INCHES : ℚ := 9

/-- Source line 57. -/
def IMG_HEIGHT_PER_STATION : ℚ := 1 / 2

/-- Source line 102: `max(IMG_HEIGHT_PER_STATION * len(estaciones), 3)`. -/
def IMG_HEIGHT_INCHES (n : ℕ) : ℚ := pymax (IMG_HEIGHT_PER_STATION * n) 3

/-- Geometry of the figure created at source lines 104-110. -/
structure FigSpec where
  nrows : ℕ
  width : ℚ
  height : ℚ
  sharex : Bool
  deriving DecidableEq

/-- Source lines 104-110: `plt.subplots(nrows=len(estaciones), ncols=1,
figsize=(IMG_WIDTH_INCHES, IMG_HEIGHT_INCHES), sharex=True)`. -/
def mkFig (n : ℕ) : FigSpec :=
  ⟨n, IMG_WIDTH_INCHES, IMG_HEIGHT_INCHES n, true⟩

/-- Observable outcome of a whole run. -/
structure RunResult where
  exitCode : ℕ
  imageWritten : Bool
  panels : List Panel
  deriving DecidableEq

/-- The top-level control flow of the script. `nombreFile` and
`codigoFile` are the contents of the two input files, `none` when the
file is missing: an unguarded `open` on a missing file raises
`FileNotFoundError`, which is uncaught, so the interpreter exits with
status 1 before producing any image. The name file is opened first
(source line 75), then the station-code file (source line 85); an empty
station list hits `sys.exit(1)` at source line 96; otherwise the loop
runs, `plt.savefig` writes the image (source line 178) and the script
ends with status 0. -/
def mainRun (nombreFile codigoFile : Option (List LC))
    (ahora t_inicio t_fin : ℚ)
    (fetch : ℕ → Except Unit (List Trace)) : RunResult :=
  match nombreFile with
  | none => ⟨1, false, []⟩
  | some nomLines =>
    match codigoFile with
    | none => ⟨1, false, []⟩
    | some codLines =>
      let ests := loadEstaciones codLines
      if ests.isEmpty then ⟨1, false, []⟩
      else
        ⟨0, true,
         runPanels ahora t_inicio t_fin (estacionNombres nomLines) fetch ests⟩

/-- The obspy stream operations the script calls, abstracted over their
(external) semantics; arguments are those of the call sites. -/
structure StreamOps (τ : Type) where
  remove_response : (output : String) → (zero_mean taper : Bool) → τ → τ
  filter_highpass : (freq : ℚ) → (corners : ℕ) → (zerophase : Bool) → τ → τ
  filter_lowpass : (freq : ℚ) → (corners : ℕ) → (zerophase : Bool) → τ → τ
  filter_bandstop : (freqmin freqmax : ℚ) → (corners : ℕ) → (zerophase : Bool) → τ → τ
  scaleData : ℚ → τ → τ

/-- The processing chain applied to a fetched stream, exactly as the
source sequences it (lines 133-139): response removal to acceleration,
highpass 0.1 Hz, lowpass 10 Hz, bandstop 49-51 Hz, then `* 100.0`. -/
def procesar {τ : Type} (ops : StreamOps τ) (st : τ) : τ :=
  let st1 := ops.remove_response "ACC" true true st
  let st2 := ops.filter_highpass (1 / 10) 4 true st1
  let st3 := ops.filter_lowpass 10 4 true st2
  let st4 := ops.filter_bandstop 49 51 2 true st3
  ops.scaleData 100 st4

/-- One observable processing event, with the parameters of the call. -/
inductive PStep where
  | removeResp (output : String) (zero_mean taper : Bool)
  | highpass (freq : ℚ) (corners : ℕ) (zerophase : Bool)
  | lowpass (freq : ℚ) (corners : ℕ) (zerophase : Bool)
  | bandstop (freqmin freqmax : ℚ) (corners : ℕ) (zerophase : Bool)
  | scaleBy (c : ℚ)
  deriving DecidableEq

/-- The logging interpretation of the stream operations: each call
appends its event, so a run records the exact call order. -/
def logOps : StreamOps (List PStep) where
  remove_response := fun o z t l => l ++ [.removeResp o z t]
  filter_highpass := fun f c z l => l ++ [.highpass f c z]
  filter_lowpass := fun f c z l => l ++ [.lowpass f c z]
  filter_bandstop := fun f g c z l => l ++ [.bandstop f g c z]
  scaleData := fun c l => l ++ [.scaleBy c]

/-! ### Helper lemmas -/

theorem runPanelsAux_length (ahora t0 t1 : ℚ) (nom : Dict)
    (fetch : ℕ → Except Unit (List Trace)) (ests : List Entry) :
    ∀ i : ℕ, (runPanelsAux ahora t0 t1 nom fetch i ests).length = ests.length := by
  induction ests with
  | nil => intro i; rfl
  | cons e rest ih => intro i; simp [runPanelsAux, ih]

theorem runPanelsAux_getElem? (ahora t0 t1 : ℚ) (nom : Dict)
    (fetch : ℕ → Except Unit (List Trace)) (ests : List Entry) :
    ∀ i j : ℕ, (runPanelsAux ahora t0 t1 nom fetch i ests)[j]? =
      (ests[j]?).map (fun e => loopBody ahora t0 t1 nom e (fetch (i + j))) := by
  induction ests with
  | nil => intro i j; simp [runPanelsAux]
  | cons e rest ih =>
    intro i j
    cases j with
    | zero => simp [runPanelsAux]
    | succ j =>
      simp only [runPanelsAux, List.getElem?_cons_succ, ih (i + 1) j]
      have : i + 1 + j = i + (j + 1) := by omega
      rw [this]

theorem runPanels_length (ahora t0 t1 : ℚ) (nom : Dict)
    (fetch : ℕ → Except Unit (List Trace)) (ests : List Entry) :
    (runPanels ahora t0 t1 nom fetch ests).length = ests.length :=
  runPanelsAux_length ahora t0 t1 nom fetch ests 0

theorem runPanels_getElem? (ahora t0 t1 : ℚ) (nom : Dict)
    (fetch : ℕ → Except Unit (List Trace)) (ests : List Entry) (j : ℕ) :
    (runPanels ahora t0 t1 nom fetch ests)[j]? =
      (ests[j]?).map (fun e => loopBody ahora t0 t1 nom e (fetch j)) := by
  have h := runPanelsAux_getElem? ahora t0 t1 nom fetch ests 0 j
  simpa [runPanels] using h

theorem tryBranch_lat_str (ahora : ℚ) (sta : LC) (tr : Trace)
    (rest : List Trace) (out : TryOut)
    (h : tryBranch ahora sta (tr :: rest) = some out) :
    out.lat_str = latStr (latSec ahora tr.endtime) := by
  have hexp : tryBranch ahora sta (tr :: rest) =
      (npMax ((tr.data.map FVal.scale100).map FVal.fabs)).bind (fun peak =>
        some ⟨cstr "[" ++ fmtFVal 2 peak ++ cstr " cm/s²] " ++ sta,
              latStr (latSec ahora tr.endtime),
              .lineBlue ((tr.times.zip (tr.data.map FVal.scale100)).filter
                (fun p => p.2.isFinite))⟩) := rfl
  rw [hexp] at h
  cases hm : npMax ((tr.data.map FVal.scale100).map FVal.fabs) with
  | none => rw [hm] at h; simp at h
  | some peak =>
    rw [hm] at h
    simp only [Option.some_bind, Option.some.injEq] at h
    rw [← h]

theorem tryBranch_parts (ahora : ℚ) (sta : LC) (tr : Trace)
    (rest : List Trace) (out : TryOut)
    (h : tryBranch ahora sta (tr :: rest) = some out) :
    ∃ peak, npMax ((tr.data.map FVal.scale100).map FVal.fabs) = some peak ∧
      out.left_label = cstr "[" ++ fmtFVal 2 peak ++ cstr " cm/s²] " ++ sta ∧
      out.plot = .lineBlue ((tr.times.zip (tr.data.map FVal.scale100)).filter
        (fun p => p.2.isFinite)) := by
  have hexp : tryBranch ahora sta (tr :: rest) =
      (npMax ((tr.data.map FVal.scale100).map FVal.fabs)).bind (fun peak =>
        some ⟨cstr "[" ++ fmtFVal 2 peak ++ cstr " cm/s²] " ++ sta,
              latStr (latSec ahora tr.endtime),
              .lineBlue ((tr.times.zip (tr.data.map FVal.scale100)).filter
                (fun p => p.2.isFinite))⟩) := rfl
  rw [hexp] at h
  cases hm : npMax ((tr.data.map FVal.scale100).map FVal.fabs) with
  | none => rw [hm] at h; simp at h
  | some peak =>
    rw [hm] at h
    simp only [Option.some_bind, Option.some.injEq] at h
    exact ⟨peak, rfl, by rw [← h], by rw [← h]⟩

theorem fmax_nan_right (x : FVal) : fmax x .nan = .nan := by
  cases x <;> rfl

theorem fmax_nan_left (x : FVal) : fmax .nan x = .nan := by
  cases x <;> rfl

theorem foldl_fmax_nan (l : List FVal) :
    ∀ init : FVal, (init = .nan ∨ .nan ∈ l) → l.foldl fmax init = .nan := by
  induction l with
  | nil =>
    intro init h
    rcases h with h | h
    · simpa using h
    · simp at h
  | cons x xs ih =>
    intro init h
    rcases h with h | h
    · subst h
      exact ih (fmax .nan x) (Or.inl (fmax_nan_left x))
    · rcases List.mem_cons.mp h with h | h
      · subst h
        exact ih (fmax init .nan) (Or.inl (fmax_nan_right init))
      · exact ih (fmax init x) (Or.inr h)

theorem npMax_nan (l : List FVal) (h : FVal.nan ∈ l) : npMax l = some .nan := by
  cases l with
  | nil => simp at h
  | cons x xs =>
    rcases List.mem_cons.mp h with h | h
    · rw [npMax, foldl_fmax_nan xs x (Or.inl h.symm)]
    · rw [npMax, foldl_fmax_nan xs x (Or.inr h)]

theorem foldl_fmax_fin (g : ℚ → ℚ) (qs : List ℚ) :
    ∀ a : ℚ, (qs.map (fun q => FVal.fin (g q))).foldl fmax (FVal.fin a) =
      FVal.fin (qs.foldl (fun m q => max m (g q)) a) := by
  induction qs with
  | nil => intro a; rfl
  | cons q qs ih =>
    intro a
    have hstep : fmax (FVal.fin a) (FVal.fin (g q)) = FVal.fin (max a (g q)) := by
      rw [show fmax (FVal.fin a) (FVal.fin (g q)) = FVal.fin (pymax a (g q)) from rfl,
        pymax_eq_max]
    simp only [List.map_cons, List.foldl_cons, hstep, ih]

theorem loadEstaciones_foldl_aux (lines : List LC) :
    ∀ acc : List Entry,
      lines.foldl
        (fun acc line =>
          match parseCodeLine line with
          | some e => acc ++ [e]
          | none => acc) acc = acc ++ lines.filterMap parseCodeLine := by
  induction lines with
  | nil => intro acc; simp
  | cons l ls ih =>
    intro acc
    cases h : parseCodeLine l <;>
      simp [List.foldl_cons, h, ih, List.filterMap_cons]

theorem loadEstaciones_eq_filterMap (lines : List LC) :
    loadEstaciones lines = lines.filterMap parseCodeLine := by
  have h := loadEstaciones_foldl_aux lines []
  simpa [loadEstaciones] using h

theorem pyStrip_all_space (line : LC) (hb : ∀ c ∈ line, isPySpace c = true) :
    pyStrip line = [] := by
  have h1 : line.dropWhile isPySpace = [] := by
    rw [List.dropWhile_eq_nil_iff]
    intro c hc
    exact hb c hc
  rw [pyStrip, h1]
  rfl

theorem splitOnDot_ne_nil (cs : LC) : splitOnDot cs ≠ [] := by
  induction cs with
  | nil => simp [splitOnDot]
  | cons c cs ih =>
    rw [splitOnDot]
    split
    · simp
    · cases h : splitOnDot cs with
      | nil => exact absurd h ih
      | cons w ws => simp

theorem splitOnDot_length (cs : LC) :
    (splitOnDot cs).length = cs.count '.' + 1 := by
  induction cs with
  | nil => simp [splitOnDot]
  | cons c cs ih =>
    by_cases hc : c = '.'
    · subst hc
      rw [splitOnDot, if_pos rfl]
      simp [List.count_cons, ih]
    · rw [splitOnDot, if_neg hc]
      cases h : splitOnDot cs with
      | nil => exact absurd h (splitOnDot_ne_nil cs)
      | cons w ws =>
        rw [h] at ih
        have hcount : (c :: cs).count '.' = cs.count '.' := by
          simp [List.count_cons, hc]
        rw [hcount]
        simpa using ih

theorem splitOnDot_no_dot (a : LC) (ha : '.' ∉ a) : splitOnDot a = [a] := by
  induction a with
  | nil => rfl
  | cons c a ih =>
    have hc : ¬(c = '.') := fun hcc => ha (hcc ▸ List.mem_cons_self c a)
    have ha' : '.' ∉ a := fun hmem => ha (List.mem_cons_of_mem c hmem)
    rw [splitOnDot, if_neg hc, ih ha']

theorem splitOnDot_append (b : LC) (hb : '.' ∉ b) (rest : LC) (w : LC)
    (ws : List LC) (h : splitOnDot rest = w :: ws) :
    splitOnDot (b ++ rest) = (b ++ w) :: ws := by
  induction b with
  | nil => simpa using h
  | cons c b ih =>
    have hc : ¬(c = '.') := fun hcc => hb (hcc ▸ List.mem_cons_self c b)
    have hb' : '.' ∉ b := fun hmem => hb (List.mem_cons_of_mem c hmem)
    rw [List.cons_append, splitOnDot, if_neg hc, ih hb']
    rfl

theorem staCode_one_dot (b a : LC) (hb : '.' ∉ b) (ha : '.' ∉ a) :
    staCode (b ++ '.' :: a) = a := by
  have hsplit : splitOnDot (b ++ '.' :: a) = [b, a] := by
    have h1 : splitOnDot ('.' :: a) = [] :: splitOnDot a := by
      rw [splitOnDot, if_pos rfl]
    rw [splitOnDot_no_dot a ha] at h1
    have h2 := splitOnDot_append b hb ('.' :: a) [] [a] h1
    simpa using h2
  simp [staCode, hsplit]

theorem staCode_not_one_dot (s : LC) (h : s.count '.' ≠ 1) : staCode s = s := by
  rw [staCode]
  have hlen := splitOnDot_length s
  rw [dif_neg (by omega)]

/-- Last element of a list, with a default for the empty list. -/
def lastD : List LC → LC → LC
  | [], d => d
  | v :: t, _ => lastD t v

/-- The display names supplied for a station code by the name file, in
file order: the remainder of every line whose first token is the code. -/
def qualNombres (lines : List LC) (sta : LC) : List LC :=
  ((lines.filterMap parseNameLine).filter (fun p => p.1 == sta)).map Prod.snd

theorem dictGetD_insert_self (d : Dict) (k v dflt : LC) :
    dictGetD (dictInsert d k v) k dflt = v := by
  induction d with
  | nil => simp [dictInsert, dictGetD]
  | cons p d ih =>
    obtain ⟨k', v'⟩ := p
    by_cases h : k' = k
    · rw [dictInsert, if_pos h, dictGetD, if_pos rfl]
    · rw [dictInsert, if_neg h, dictGetD, if_neg h, ih]

theorem dictGetD_insert_other (d : Dict) (kIns v k dflt : LC)
    (hne : kIns ≠ k) : dictGetD (dictInsert d kIns v) k dflt =
      dictGetD d k dflt := by
  induction d with
  | nil => simp [dictInsert, dictGetD, hne]
  | cons p d ih =>
    obtain ⟨k', v'⟩ := p
    by_cases h : k' = kIns
    · subst h
      rw [dictInsert, if_pos rfl, dictGetD, if_neg hne, dictGetD, if_neg hne]
    · rw [dictInsert, if_neg h, dictGetD, dictGetD]
      by_cases h2 : k' = k
      · rw [if_pos h2, if_pos h2]
      · rw [if_neg h2, if_neg h2, ih]

theorem nombres_lookup_aux (sta dflt : LC) (lines : List LC) :
    ∀ d : Dict, dictGetD (lines.foldl nombresStep d) sta dflt =
      lastD (qualNombres lines sta) (dictGetD d sta dflt) := by
  induction lines with
  | nil => intro d; simp [qualNombres, lastD]
  | cons l ls ih =>
    intro d
    rw [List.foldl_cons, ih (nombresStep d l)]
    cases hp : parseNameLine l with
    | none =>
      rw [show nombresStep d l = d by rw [nombresStep, hp]]
      rw [show qualNombres (l :: ls) sta = qualNombres ls sta by
        simp [qualNombres, List.filterMap_cons, hp]]
    | some kv =>
      obtain ⟨k, v⟩ := kv
      rw [show nombresStep d l = dictInsert d k v by rw [nombresStep, hp]]
      by_cases hk : k = sta
      · subst hk
        rw [dictGetD_insert_self]
        rw [show qualNombres (l :: ls) k = v :: qualNombres ls k by
          simp [qualNombres, List.filterMap_cons, hp]]
        rfl
      · rw [dictGetD_insert_other d k v sta dflt hk]
        rw [show qualNombres (l :: ls) sta = qualNombres ls sta by
          simp [qualNombres, List.filterMap_cons, hp, hk]]

theorem nombreEstacion_lastD (lines : List LC) (sta : LC) :
    nombreEstacion lines sta = lastD (qualNombres lines sta) sta := by
  rw [nombreEstacion, estacionNombres, nombres_lookup_aux sta sta lines []]
  rfl

/-! ### Claims -/

/-- C3: for every station list file whose loader yields `N ≥ 1` entries,
the figure has exactly `N` stacked subplot rows sharing the x axis, one
panel per entry in list order, width fixed at 9 inches and height
`max(0.5 * N, 3)` inches. -/
theorem c3_figure_geometry (lines : List LC) (ahora t0 t1 : ℚ) (nom : Dict)
    (fetch : ℕ → Except Unit (List Trace))
    (hN : 1 ≤ (loadEstaciones lines).length) :
    (mkFig (loadEstaciones lines).length).nrows = (loadEstaciones lines).length ∧
    (mkFig (loadEstaciones lines).length).width = 9 ∧
    (mkFig (loadEstaciones lines).length).height =
      max ((1 / 2 : ℚ) * (loadEstaciones lines).length) 3 ∧
    (mkFig (loadEstaciones lines).length).sharex = true ∧
    (runPanels ahora t0 t1 nom fetch (loadEstaciones lines)).length =
      (loadEstaciones lines).length ∧
    ∀ j : ℕ, (runPanels ahora t0 t1 nom fetch (loadEstaciones lines))[j]? =
      ((loadEstaciones lines)[j]?).map
        (fun e => loopBody ahora t0 t1 nom e (fetch j)) := by
  refine ⟨rfl, rfl, ?_, rfl, runPanels_length _ _ _ _ _ _, fun j => ?_⟩
  · rw [← pymax_eq_max]; rfl
  · exact runPanels_getElem? ahora t0 t1 nom fetch (loadEstaciones lines) j

/-- Witness for C3 at a one-line station file. -/
theorem c3_witness :
    1 ≤ (loadEstaciones [cstr "OV ABC"]).length ∧
    (runPanels 0 0 0 [] (fun _ => Except.error ())
        (loadEstaciones [cstr "OV ABC"])).length =
      (loadEstaciones [cstr "OV ABC"]).length :=
  ⟨by decide,
   (c3_figure_geometry [cstr "OV ABC"] 0 0 0 [] (fun _ => Except.error ())
       (by decide)).2.2.2.2.1⟩

/-- C7: for a station with data, the latency annotation uses the seconds
format `(latencia Xs)` when the latency is strictly below 60 seconds and
the minutes format `(latencia Ym)` with `Y = latency / 60` at 60 seconds
or more. -/
theorem c7_latency_format (ahora : ℚ) (sta : LC) (tr : Trace)
    (rest : List Trace) (out : TryOut)
    (h : tryBranch ahora sta (tr :: rest) = some out) :
    (latSec ahora tr.endtime < 60 →
      out.lat_str =
        cstr "(latencia " ++ fmtFixed 1 (latSec ahora tr.endtime) ++ cstr "s)") ∧
    (60 ≤ latSec ahora tr.endtime →
      out.lat_str =
        cstr "(latencia " ++ fmtFixed 1 (latSec ahora tr.endtime / 60) ++ cstr "m)") := by
  have hl := tryBranch_lat_str ahora sta tr rest out h
  constructor
  · intro hlt
    rw [hl, latStr, if_pos hlt]
  · intro hge
    rw [hl, latStr, if_neg (not_lt.mpr hge)]

/-- Witness for C7 on a concrete 50-second-latency trace. -/
theorem c7_witness :
    tryBranch 100 (cstr "ABC") [⟨[0], [.fin 1], 50⟩] =
      some ⟨cstr "[100.00 cm/s²] ABC", cstr "(latencia 50.0s)",
            .lineBlue [(0, .fin 100)]⟩ ∧
    latSec 100 50 < 60 ∧
    (⟨cstr "[100.00 cm/s²] ABC", cstr "(latencia 50.0s)",
      .lineBlue [(0, .fin 100)]⟩ : TryOut).lat_str =
      cstr "(latencia " ++ fmtFixed 1 (latSec 100 50) ++ cstr "s)" :=
  ⟨by decide, by decide,
   (c7_latency_format 100 (cstr "ABC") ⟨[0], [.fin 1], 50⟩ [] _ (by decide)).1
     (by decide)⟩

/-- C8: the processing chain is applied in exactly this order: response
removal with acceleration output, highpass, lowpass, bandstop at the
fixed 49-51 Hz pair, then multiplication of the samples by 100. -/
theorem c8_processing_order (start : List PStep) :
    procesar logOps start =
      start ++
        [PStep.removeResp "ACC" true true,
         PStep.highpass (1 / 10) 4 true,
         PStep.lowpass 10 4 true,
         PStep.bandstop 49 51 2 true,
         PStep.scaleBy 100] := by
  simp [procesar, logOps]

/-- C9: the latency value shown for a station with data is
`max(0, ahora - endtime)` with the single `ahora` of the run, hence never
negative, and exactly 0 when the last sample lies at or after `ahora`. -/
theorem c9_latency_nonneg (ahora endtime : ℚ) (sta : LC) (tr : Trace)
    (rest : List Trace) :
    0 ≤ latSec ahora endtime ∧
    (ahora ≤ endtime → latSec ahora endtime = 0) ∧
    (∀ out, tryBranch ahora sta (tr :: rest) = some out →
      out.lat_str = latStr (latSec ahora tr.endtime)) := by
  refine ⟨?_, fun hle => ?_, fun out h => tryBranch_lat_str ahora sta tr rest out h⟩
  · rw [latSec, pymax_eq_max]
    exact le_max_left 0 _
  · rw [latSec, pymax_eq_max]
    exact max_eq_left (by linarith)

/-- C1: if any exception is raised during a station's fetch or processing
(the whole `try` block, modelled by `attempt` returning `none`), the run
does not abort: that station's panel is the flat zero-amplitude red trace
over the whole window with left label `[Sin datos] <station code>`, and
every station of the list still gets its panel. -/
theorem c1_station_fallback (ahora t0 t1 : ℚ) (nom : Dict)
    (fetch : ℕ → Except Unit (List Trace)) (ests : List Entry) (i : ℕ)
    (e : Entry) (he : ests[i]? = some e)
    (hfail : attempt ahora (staCode e.full_sta) (fetch i) = none) :
    (runPanels ahora t0 t1 nom fetch ests).length = ests.length ∧
    (runPanels ahora t0 t1 nom fetch ests)[i]? = some
      ⟨cstr "[Sin datos] " ++ staCode e.full_sta,
       dictGetD nom (staCode e.full_sta) (staCode e.full_sta) ++ cstr " (sin datos)",
       [],
       .lineRedFlat t0 t1⟩ := by
  refine ⟨runPanels_length _ _ _ _ _ _, ?_⟩
  rw [runPanels_getElem?, he]
  simp only [Option.map_some', loopBody, hfail]

/-- Witness for C1: a one-station run whose fetch raises. -/
theorem c1_witness :
    ([(⟨cstr "OV", cstr "OV.ABC", cstr "*", cstr "H*"⟩ : Entry)][0]? =
      some ⟨cstr "OV", cstr "OV.ABC", cstr "*", cstr "H*"⟩) ∧
    attempt 0 (staCode (cstr "OV.ABC")) (Except.error ()) = none ∧
    (runPanels 0 0 3600 [] (fun _ => Except.error ())
        [⟨cstr "OV", cstr "OV.ABC", cstr "*", cstr "H*"⟩])[0]? = some
      ⟨cstr "[Sin datos] " ++ staCode (cstr "OV.ABC"),
       dictGetD [] (staCode (cstr "OV.ABC")) (staCode (cstr "OV.ABC")) ++
         cstr " (sin datos)",
       [],
       .lineRedFlat 0 3600⟩ :=
  ⟨by decide, by decide,
   (c1_station_fallback 0 0 3600 [] (fun _ => Except.error ())
       [⟨cstr "OV", cstr "OV.ABC", cstr "*", cstr "H*"⟩] 0
       ⟨cstr "OV", cstr "OV.ABC", cstr "*", cstr "H*"⟩
       (by decide) (by decide)).2⟩

/-- C4: for a station whose fetch and processing succeed (here with all
samples finite and at least one sample), the left label is the peak
amplitude — the maximum over all samples of the absolute value of the
sample scaled by 100 — formatted with two decimals, followed by the
station code. -/
theorem c4_peak_label (ahora : ℚ) (sta : LC) (times : List ℚ) (endtime : ℚ)
    (q0 : ℚ) (qrest : List ℚ) (rest : List Trace) (out : TryOut)
    (h : tryBranch ahora sta
      (⟨times, (q0 :: qrest).map FVal.fin, endtime⟩ :: rest) = some out) :
    out.left_label =
      cstr "[" ++
        fmtFixed 2 (qrest.foldl (fun m q => max m |q * 100|) |q0 * 100|) ++
        cstr " cm/s²] " ++ sta := by
  obtain ⟨peak, hm, hl, -⟩ := tryBranch_parts ahora sta _ rest out h
  have hmap : (((q0 :: qrest).map FVal.fin).map FVal.scale100).map FVal.fabs =
      FVal.fin (qabs (q0 * 100)) ::
        qrest.map (fun q => FVal.fin (qabs (q * 100))) := by
    rw [List.map_map, List.map_map,
      show ((FVal.fabs ∘ FVal.scale100) ∘ FVal.fin) =
        fun q => FVal.fin (qabs (q * 100)) from funext (fun q => rfl),
      List.map_cons]
  rw [hmap] at hm
  rw [npMax, Option.some.injEq] at hm
  rw [foldl_fmax_fin (fun q => qabs (q * 100)) qrest (qabs (q0 * 100))] at hm
  rw [hl, ← hm]
  simp [fmtFVal, qabs_eq_abs]

/-- Witness for C4: peak of samples 1 and -2 (scaled: 100 and -200)
is 200. -/
theorem c4_witness :
    tryBranch 0 (cstr "ABC") [⟨[0, 1], [FVal.fin 1, FVal.fin (-2)], 0⟩] =
      some ⟨cstr "[200.00 cm/s²] ABC", cstr "(latencia 0.0s)",
            .lineBlue [(0, .fin 100), (1, .fin (-200))]⟩ ∧
    (⟨cstr "[200.00 cm/s²] ABC", cstr "(latencia 0.0s)",
      .lineBlue [(0, .fin 100), (1, .fin (-200))]⟩ : TryOut).left_label =
      cstr "[" ++
        fmtFixed 2 (List.foldl (fun m q => max m |q * 100|) |(1 : ℚ) * 100| [-2]) ++
        cstr " cm/s²] " ++ cstr "ABC" :=
  ⟨by decide,
   c4_peak_label 0 (cstr "ABC") [0, 1] 0 1 [-2] [] _ (by decide)⟩

/-- C10: for a station with data, non-finite samples are excluded from
the plotted points by the finiteness mask, but not from the
peak-amplitude computation: a NaN among the samples makes the label
`[nan cm/s²] <code>` while every plotted point is finite. -/
theorem c10_mask_vs_peak (ahora : ℚ) (sta : LC) (tr : Trace)
    (rest : List Trace) (out : TryOut)
    (h : tryBranch ahora sta (tr :: rest) = some out) :
    (∀ pts, out.plot = .lineBlue pts → ∀ p ∈ pts, p.2.isFinite = true) ∧
    (FVal.nan ∈ tr.data → out.left_label = cstr "[nan cm/s²] " ++ sta) := by
  obtain ⟨peak, hm, hl, hp⟩ := tryBranch_parts ahora sta tr rest out h
  constructor
  · intro pts hpts p hmem
    rw [hp] at hpts
    cases hpts
    exact (List.mem_filter.mp hmem).2
  · intro hnan
    have h1 : FVal.nan ∈ tr.data.map FVal.scale100 :=
      List.mem_map.mpr ⟨.nan, hnan, rfl⟩
    have h2 : FVal.nan ∈ (tr.data.map FVal.scale100).map FVal.fabs :=
      List.mem_map.mpr ⟨.nan, h1, rfl⟩
    rw [npMax_nan _ h2, Option.some.injEq] at hm
    rw [hl, ← hm]
    rfl

/-- Witness for C10: a trace containing a NaN sample. -/
theorem c10_witness :
    tryBranch 0 (cstr "ABC") [⟨[0, 1], [FVal.fin 1, FVal.nan], 0⟩] =
      some ⟨cstr "[nan cm/s²] ABC", cstr "(latencia 0.0s)",
            .lineBlue [(0, .fin 100)]⟩ ∧
    FVal.nan ∈ [FVal.fin 1, FVal.nan] ∧
    (⟨cstr "[nan cm/s²] ABC", cstr "(latencia 0.0s)",
      .lineBlue [(0, .fin 100)]⟩ : TryOut).left_label =
      cstr "[nan cm/s²] " ++ cstr "ABC" :=
  ⟨by decide, by decide,
   (c10_mask_vs_peak 0 (cstr "ABC") ⟨[0, 1], [FVal.fin 1, FVal.nan], 0⟩ [] _
       (by decide)).2 (by decide)⟩

/-- C5: the station-list loader builds an ordered list with one entry per
line having at least two whitespace tokens (first token network, second
the station identifier), ignoring blank lines; the station code is the
part after the dot when the identifier has exactly one dot, and the whole
identifier otherwise. -/
theorem c5_station_loader (lines : List LC) :
    loadEstaciones lines = lines.filterMap parseCodeLine ∧
    (∀ line ∈ lines, (∀ c ∈ line, isPySpace c = true) →
      parseCodeLine line = none) ∧
    (∀ line net full_sta tokRest,
      pyWords (pyStrip line) = net :: full_sta :: tokRest →
      parseCodeLine line = some ⟨net, full_sta, cstr "*", cstr "H*"⟩) ∧
    (∀ b a : LC, '.' ∉ b → '.' ∉ a → staCode (b ++ '.' :: a) = a) ∧
    (∀ s : LC, s.count '.' ≠ 1 → staCode s = s) := by
  refine ⟨loadEstaciones_eq_filterMap lines, ?_, ?_, ?_, ?_⟩
  · intro line _ hb
    rw [parseCodeLine, pyStrip_all_space line hb]
    rfl
  · intro line net full_sta tokRest htok
    rw [parseCodeLine, htok]
  · exact fun b a hb ha => staCode_one_dot b a hb ha
  · exact fun s hs => staCode_not_one_dot s hs

/-- Witness for C5 on a three-line file (a dotted entry, a blank line, a
one-token line) plus the two dot-rule cases. -/
theorem c5_witness :
    loadEstaciones [cstr "OV OV.ABC", cstr "   ", cstr "XX"] =
      ([cstr "OV OV.ABC", cstr "   ", cstr "XX"].filterMap parseCodeLine) ∧
    ('.' ∉ cstr "OV") ∧ ('.' ∉ cstr "ABC") ∧
    staCode (cstr "OV" ++ '.' :: cstr "ABC") = cstr "ABC" ∧
    ((cstr "A.B.C").count '.' ≠ 1) ∧
    staCode (cstr "A.B.C") = cstr "A.B.C" :=
  ⟨(c5_station_loader [cstr "OV OV.ABC", cstr "   ", cstr "XX"]).1,
   by decide, by decide,
   (c5_station_loader []).2.2.2.1 (cstr "OV") (cstr "ABC") (by decide) (by decide),
   by decide,
   (c5_station_loader []).2.2.2.2 (cstr "A.B.C") (by decide)⟩

/-- C6: a station code that appears as the first token of exactly one
qualifying name-file line (non-empty remainder) displays that remainder;
a code absent from the name file displays the bare code; on failure the
panel appends ` (sin datos)` to the display name, on success it shows it
unchanged. -/
theorem c6_display_name (lines : List LC) (sta : LC) (ahora t0 t1 : ℚ)
    (e : Entry) (fetched : Except Unit (List Trace)) :
    (qualNombres lines sta = [] → nombreEstacion lines sta = sta) ∧
    (∀ rest, qualNombres lines sta = [rest] →
      nombreEstacion lines sta = rest) ∧
    (staCode e.full_sta = sta →
      (attempt ahora sta fetched = none →
        (loopBody ahora t0 t1 (estacionNombres lines) e fetched).nombre =
          nombreEstacion lines sta ++ cstr " (sin datos)") ∧
      (∀ out, attempt ahora sta fetched = some out →
        (loopBody ahora t0 t1 (estacionNombres lines) e fetched).nombre =
          nombreEstacion lines sta)) := by
  refine ⟨?_, ?_, ?_⟩
  · intro hq
    rw [nombreEstacion_lastD, hq]
    rfl
  · intro rest hq
    rw [nombreEstacion_lastD, hq]
    rfl
  · intro hsta
    constructor
    · intro hfail
      simp only [loopBody]
      rw [hsta, hfail]
      rfl
    · intro out hsome
      simp only [loopBody]
      rw [hsta, hsome]
      rfl

/-- Witness for C6: one code present in the name file, one absent, and
the failure suffix on a concrete panel. -/
theorem c6_witness :
    qualNombres [cstr "ABC Estacion Uno", cstr "XYZ Otra"] (cstr "ABC") =
      [cstr "Estacion Uno"] ∧
    nombreEstacion [cstr "ABC Estacion Uno", cstr "XYZ Otra"] (cstr "ABC") =
      cstr "Estacion Uno" ∧
    qualNombres [cstr "ABC Estacion Uno", cstr "XYZ Otra"] (cstr "QQQ") = [] ∧
    nombreEstacion [cstr "ABC Estacion Uno", cstr "XYZ Otra"] (cstr "QQQ") =
      cstr "QQQ" ∧
    (loopBody 0 0 3600
        (estacionNombres [cstr "ABC Estacion Uno", cstr "XYZ Otra"])
        ⟨cstr "OV", cstr "ABC", cstr "*", cstr "H*"⟩
        (Except.error ())).nombre =
      nombreEstacion [cstr "ABC Estacion Uno", cstr "XYZ Otra"] (cstr "ABC") ++
        cstr " (sin datos)" :=
  ⟨by decide,
   (c6_display_name [cstr "ABC Estacion Uno", cstr "XYZ Otra"] (cstr "ABC")
       0 0 3600 ⟨cstr "OV", cstr "ABC", cstr "*", cstr "H*"⟩
       (Except.error ())).2.1 (cstr "Estacion Uno") (by decide),
   by decide,
   (c6_display_name [cstr "ABC Estacion Uno", cstr "XYZ Otra"] (cstr "QQQ")
       0 0 3600 ⟨cstr "OV", cstr "ABC", cstr "*", cstr "H*"⟩
       (Except.error ())).1 (by decide),
   ((c6_display_name [cstr "ABC Estacion Uno", cstr "XYZ Otra"] (cstr "ABC")
       0 0 3600 ⟨cstr "OV", cstr "ABC", cstr "*", cstr "H*"⟩
       (Except.error ())).2.2 (by decide)).1 (by decide)⟩

/-- Counterexample to C2 as stated: with the station-code file present
and yielding one usable entry but the station-name file missing, the
process exits with code 1 and writes no image, although the claim
demands exit code 0 after writing the image in every case where the
station-code file is present and non-empty. -/
theorem c2_counterexample :
    loadEstaciones [cstr "OV ABC"] ≠ [] ∧
    (mainRun none (some [cstr "OV ABC"]) 0 0 3600
        (fun _ => Except.error ())).exitCode = 1 ∧
    (mainRun none (some [cstr "OV ABC"]) 0 0 3600
        (fun _ => Except.error ())).imageWritten = false := by
  exact ⟨by decide, rfl, rfl⟩

/-- C2 (amended): the exit code is 1 exactly when the station-name file
is missing, the station-code file is missing, or the station-code file
yields zero usable entries; the image is written exactly when the exit
code is 0, and in that case the loop has produced one panel per entry. -/
theorem c2_exit_code (nombreFile codigoFile : Option (List LC))
    (ahora t0 t1 : ℚ) (fetch : ℕ → Except Unit (List Trace)) :
    ((mainRun nombreFile codigoFile ahora t0 t1 fetch).exitCode = 1 ∨
      (mainRun nombreFile codigoFile ahora t0 t1 fetch).exitCode = 0) ∧
    ((mainRun nombreFile codigoFile ahora t0 t1 fetch).exitCode = 1 ↔
      (nombreFile = none ∨ codigoFile = none ∨
        ∃ ls, codigoFile = some ls ∧ loadEstaciones ls = [])) ∧
    ((mainRun nombreFile codigoFile ahora t0 t1 fetch).imageWritten = true ↔
      (mainRun nombreFile codigoFile ahora t0 t1 fetch).exitCode = 0) ∧
    ((mainRun nombreFile codigoFile ahora t0 t1 fetch).exitCode = 0 →
      ∀ nomLines codLines, nombreFile = some nomLines →
        codigoFile = some codLines →
        (mainRun nombreFile codigoFile ahora t0 t1 fetch).panels.length =
          (loadEstaciones codLines).length) := by
  cases nombreFile with
  | none => simp [mainRun]
  | some nomLines =>
    cases codigoFile with
    | none => simp [mainRun]
    | some codLines =>
      by_cases hemp : (loadEstaciones codLines).isEmpty
      · have hnil : loadEstaciones codLines = [] :=
          List.isEmpty_iff.mp hemp
        simp [mainRun, hemp, hnil]
      · have hne : loadEstaciones codLines ≠ [] := by
          intro hc
          rw [hc] at hemp
          exact hemp rfl
        simp [mainRun, hemp, hne]
        exact runPanels_length _ _ _ _ _ _

/-- Witness for C2 (amended): both files present, one usable entry, all
fetches failing — exit code 0 and the image written. -/
theorem c2_witness :
    (mainRun (some []) (some [cstr "OV ABC"]) 0 0 3600
        (fun _ => Except.error ())).exitCode = 0 ∧
    (mainRun (some []) (some [cstr "OV ABC"]) 0 0 3600
        (fun _ => Except.error ())).imageWritten = true := by
  have h := c2_exit_code (some []) (some [cstr "OV ABC"]) 0 0 3600
    (fun _ => Except.error ())
  have hfatal : ¬ ((some ([] : List LC)) = none ∨
      (some [cstr "OV ABC"]) = none ∨
      ∃ ls, (some [cstr "OV ABC"] : Option (List LC)) = some ls ∧
        loadEstaciones ls = []) := by
    rintro (hc | hc | ⟨ls, hls, hempty⟩)
    · exact Option.noConfusion hc
    · exact Option.noConfusion hc
    · cases hls
      revert hempty
      decide
  have hnot1 : (mainRun (some []) (some [cstr "OV ABC"]) 0 0 3600
      (fun _ => Except.error ())).exitCode ≠ 1 :=
    fun h1 => hfatal (h.2.1.mp h1)
  have h0 := h.1.resolve_left hnot1
  exact ⟨h0, h.2.2.1.mpr h0⟩

/-- Witness for C9 at a trace ending after the capture time. -/
theorem c9_witness :
    0 ≤ latSec 5 7 ∧ latSec 5 7 = 0 :=
  ⟨(c9_latency_nonneg 5 7 (cstr "A") ⟨[], [], 0⟩ []).1,
   (c9_latency_nonneg 5 7 (cstr "A") ⟨[], [], 0⟩ []).2.1 (by norm_num)⟩

end Fsdn2plot
